import Mathlib

/-!
A shallow embedding of the relationship-aware CRUD service layer of the
`prisma-nest-reletions` repository: the relational store (six tables, with
the unique and foreign-key constraints of the Prisma schema), the database
layer's behaviour on those constraints (unique violation `P2002`, record
required for a write missing `P2025`, foreign-key violation `P2003`), and
the four entity services (`UsersService`, `PostsService`,
`CategoriesService`, `CommentsService`) as state-passing functions.

Rows are kept in insertion order; `createdAt` columns are drawn from a
logical clock that the store advances on every insert. The
`orderBy createdAt desc` reads are embedded as a deterministic descending
sort over the stored rows; the `orderBy posts._count desc` read, whose
order among equal counts the source leaves to the database (it names no
secondary sort key), is additionally characterised relationally by
`getPopularCategoriesSpec`, the set of results the ordered read may
return.
-/

namespace Blog

/-- A row of the `User` table: `id`, unique `email`, optional `name`. -/
structure User where
  id : Nat
  email : String
  name : Option String
  createdAt : Nat
deriving Repr, DecidableEq

/-- A row of the `Profile` table; `userId` is unique (one-to-one with `User`). -/
structure Profile where
  id : Nat
  bio : Option String
  avatar : Option String
  website : Option String
  userId : Nat
deriving Repr, DecidableEq

/-- A row of the `Post` table; `authorId` references `User`. -/
structure Post where
  id : Nat
  title : String
  content : Option String
  published : Bool
  authorId : Nat
  createdAt : Nat
deriving Repr, DecidableEq

/-- A row of the `Category` table; `name` and `slug` are unique. -/
structure Category where
  id : Nat
  name : String
  slug : String
deriving Repr, DecidableEq

/-- A row of the explicit `PostCategory` join table; the pair
`(postId, categoryId)` is unique. -/
structure PostCategory where
  id : Nat
  postId : Nat
  categoryId : Nat
  createdAt : Nat
deriving Repr, DecidableEq

/-- A row of the `Comment` table; `postId` and `authorId` are required
foreign keys. -/
structure Comment where
  id : Nat
  content : String
  postId : Nat
  authorId : Nat
  createdAt : Nat
deriving Repr, DecidableEq

/-- The relational store: the six tables (rows in insertion order), one
autoincrement counter per table, and the logical clock that stamps
`createdAt`. -/
structure DB where
  users : List User
  profiles : List Profile
  posts : List Post
  categories : List Category
  postCategories : List PostCategory
  comments : List Comment
  nextUserId : Nat
  nextProfileId : Nat
  nextPostId : Nat
  nextCategoryId : Nat
  nextPostCategoryId : Nat
  nextCommentId : Nat
  clock : Nat
deriving Repr, DecidableEq

/-- The empty store. -/
def DB.empty : DB :=
  { users := [], profiles := [], posts := [], categories := [],
    postCategories := [], comments := [],
    nextUserId := 1, nextProfileId := 1, nextPostId := 1,
    nextCategoryId := 1, nextPostCategoryId := 1, nextCommentId := 1,
    clock := 0 }

/-- The known Prisma error codes the services may see: `P2002`
(unique-constraint violation), `P2025` (record required for a write does not
exist), `P2003` (foreign-key violation), and any other code. -/
inductive DbErr where
  | P2002
  | P2025
  | P2003
  | other (code : String)
deriving Repr, DecidableEq

/-- A service-level outcome: a NestJS `NotFoundException` (404), a
`ConflictException` (409), or an untranslated database error that bubbles
out of the service. -/
inductive AppError where
  | notFound (msg : String)
  | conflict (msg : String)
  | db (e : DbErr)
deriving Repr, DecidableEq

/-- Whether a service outcome is a uniqueness-conflict (409) domain signal. -/
def isConflictResult {α : Type} : Except AppError α → Bool
  | .error (.conflict _) => true
  | _ => false

/-- Whether a service outcome is a not-found (404) domain signal. -/
def isNotFoundResult {α : Type} : Except AppError α → Bool
  | .error (.notFound _) => true
  | _ => false

/-! ### Stable descending sort (the embedding of `orderBy ... desc`) -/

/-- Insert `x` into a descending-sorted list, after every element whose key
is at least `key x` (so the sort below is stable). -/
def insertIn {α : Type} (key : α → Nat) (x : α) : List α → List α
  | [] => [x]
  | y :: ys => if key y < key x then x :: y :: ys else y :: insertIn key x ys

/-- Insert every element of the first list, in order, into the accumulator. -/
def sortInsertAll {α : Type} (key : α → Nat) : List α → List α → List α
  | [], acc => acc
  | x :: xs, acc => sortInsertAll key xs (insertIn key x acc)

/-- A deterministic sort by descending `key` (stable on ties): one
evaluation of an `orderBy _ desc` read over rows stored in insertion
order. -/
def sortByKeyDesc {α : Type} (key : α → Nat) (l : List α) : List α :=
  sortInsertAll key l []

/-! ### The database layer (`prisma.<table>.<op>` calls the services make) -/

namespace Prisma

/-- `prisma.user.create`: rejects a duplicate `email` with `P2002`, else
appends a fresh row. -/
def userCreate (db : DB) (email : String) (name : Option String) :
    Except DbErr User × DB :=
  if db.users.any (fun u => u.email == email) then
    (.error .P2002, db)
  else
    let u : User :=
      { id := db.nextUserId, email := email, name := name, createdAt := db.clock }
    (.ok u,
     { db with users := db.users ++ [u], nextUserId := db.nextUserId + 1,
               clock := db.clock + 1 })

/-- `prisma.user.findUnique({ where: { id } })`. -/
def userFindUnique (db : DB) (id : Nat) : Option User :=
  db.users.find? (fun u => u.id == id)

/-- `prisma.user.findUnique({ where: { email } })`. -/
def userFindByEmail (db : DB) (email : String) : Option User :=
  db.users.find? (fun u => u.email == email)

/-- The data of a `PATCH /users/:id` body: both fields optional. -/
structure UserUpdateData where
  email : Option String
  name : Option String
deriving Repr, DecidableEq

/-- Apply an update body to a user row (absent fields unchanged). -/
def applyUserUpdate (u : User) (d : UserUpdateData) : User :=
  { u with
    email := match d.email with | some e => e | none => u.email,
    name := match d.name with | some n => some n | none => u.name }

/-- `prisma.user.update`: `P2025` when no row has the id, `P2002` when the
new email collides with another user's, else update in place. -/
def userUpdate (db : DB) (id : Nat) (d : UserUpdateData) :
    Except DbErr User × DB :=
  match db.users.find? (fun u => u.id == id) with
  | none => (.error .P2025, db)
  | some u =>
    let u' := applyUserUpdate u d
    if db.users.any (fun v => v.id != id && v.email == u'.email) then
      (.error .P2002, db)
    else
      (.ok u',
       { db with users := db.users.map (fun v => if v.id == id then u' else v) })

/-- `prisma.user.delete`: `P2025` when no row has the id; otherwise deletes
the row, and the schema's `onDelete: Cascade` removes the user's profile,
posts and comments, and the comments and join rows of those posts. -/
def userDelete (db : DB) (id : Nat) : Except DbErr User × DB :=
  match db.users.find? (fun u => u.id == id) with
  | none => (.error .P2025, db)
  | some u =>
    let ownPostIds := (db.posts.filter (fun p => p.authorId == id)).map Post.id
    (.ok u,
     { db with
       users := db.users.filter (fun v => v.id != id),
       profiles := db.profiles.filter (fun pr => pr.userId != id),
       posts := db.posts.filter (fun p => p.authorId != id),
       comments := db.comments.filter
         (fun c => c.authorId != id && !ownPostIds.contains c.postId),
       postCategories := db.postCategories.filter
         (fun j => !ownPostIds.contains j.postId) })

/-- The data of a profile create/update body: all fields optional. -/
structure ProfileData where
  bio : Option String
  avatar : Option String
  website : Option String
deriving Repr, DecidableEq

/-- Apply a profile update body to a profile row (absent fields unchanged;
`id` and `userId` are untouched). -/
def applyProfileData (p : Profile) (d : ProfileData) : Profile :=
  { p with
    bio := match d.bio with | some v => some v | none => p.bio,
    avatar := match d.avatar with | some v => some v | none => p.avatar,
    website := match d.website with | some v => some v | none => p.website }

/-- `prisma.profile.update({ where: { userId } })`: `P2025` when the user has
no profile row, else update that row in place. -/
def profileUpdateByUserId (db : DB) (userId : Nat) (d : ProfileData) :
    Except DbErr Profile × DB :=
  match db.profiles.find? (fun p => p.userId == userId) with
  | none => (.error .P2025, db)
  | some p =>
    let p' := applyProfileData p d
    (.ok p',
     { db with profiles :=
         db.profiles.map (fun q => if q.userId == userId then p' else q) })

/-- `prisma.profile.create`: `P2002` when the user already has a profile
(`userId` is unique), `P2003` when the user does not exist (foreign key),
else appends a fresh row. -/
def profileCreate (db : DB) (d : ProfileData) (userId : Nat) :
    Except DbErr Profile × DB :=
  if db.profiles.any (fun p => p.userId == userId) then
    (.error .P2002, db)
  else if !db.users.any (fun u => u.id == userId) then
    (.error .P2003, db)
  else
    let p : Profile :=
      { id := db.nextProfileId, bio := d.bio, avatar := d.avatar,
        website := d.website, userId := userId }
    (.ok p,
     { db with profiles := db.profiles ++ [p],
               nextProfileId := db.nextProfileId + 1 })

/-- The data of a `PATCH /posts/:id` body: all fields optional. -/
structure PostUpdateData where
  title : Option String
  content : Option String
  published : Option Bool
deriving Repr, DecidableEq

/-- Apply a post update body to a post row (absent fields unchanged). -/
def applyPostUpdate (p : Post) (d : PostUpdateData) : Post :=
  { p with
    title := match d.title with | some t => t | none => p.title,
    content := match d.content with | some c => some c | none => p.content,
    published := match d.published with | some b => b | none => p.published }

/-- `prisma.post.update`: `P2025` when no row has the id, else update in
place. -/
def postUpdate (db : DB) (id : Nat) (d : PostUpdateData) :
    Except DbErr Post × DB :=
  match db.posts.find? (fun p => p.id == id) with
  | none => (.error .P2025, db)
  | some p =>
    let p' := applyPostUpdate p d
    (.ok p',
     { db with posts := db.posts.map (fun q => if q.id == id then p' else q) })

/-- `prisma.post.delete`: `P2025` when no row has the id; otherwise deletes
the row, and the schema cascades to its comments and join rows. -/
def postDelete (db : DB) (id : Nat) : Except DbErr Post × DB :=
  match db.posts.find? (fun p => p.id == id) with
  | none => (.error .P2025, db)
  | some p =>
    (.ok p,
     { db with
       posts := db.posts.filter (fun q => q.id != id),
       comments := db.comments.filter (fun c => c.postId != id),
       postCategories := db.postCategories.filter (fun j => j.postId != id) })

/-- The data of a `PATCH /categories/:id` body: both fields optional. -/
structure CategoryUpdateData where
  name : Option String
  slug : Option String
deriving Repr, DecidableEq

/-- Apply a category update body to a category row (absent fields
unchanged). -/
def applyCategoryUpdate (c : Category) (d : CategoryUpdateData) : Category :=
  { c with
    name := match d.name with | some n => n | none => c.name,
    slug := match d.slug with | some s => s | none => c.slug }

/-- `prisma.category.update`: `P2025` when no row has the id, `P2002` when
the new name or slug collides with another category's, else update in
place. -/
def categoryUpdate (db : DB) (id : Nat) (d : CategoryUpdateData) :
    Except DbErr Category × DB :=
  match db.categories.find? (fun c => c.id == id) with
  | none => (.error .P2025, db)
  | some c =>
    let c' := applyCategoryUpdate c d
    if db.categories.any
        (fun o => o.id != id && (o.name == c'.name || o.slug == c'.slug)) then
      (.error .P2002, db)
    else
      (.ok c',
       { db with categories :=
           db.categories.map (fun o => if o.id == id then c' else o) })

/-- `prisma.category.delete`: `P2025` when no row has the id; otherwise
deletes the row and the schema cascades to its join rows. -/
def categoryDelete (db : DB) (id : Nat) : Except DbErr Category × DB :=
  match db.categories.find? (fun c => c.id == id) with
  | none => (.error .P2025, db)
  | some c =>
    (.ok c,
     { db with
       categories := db.categories.filter (fun o => o.id != id),
       postCategories := db.postCategories.filter (fun j => j.categoryId != id) })

/-- `prisma.comment.create`: `P2003` when `postId` or `authorId` resolves to
no row (required foreign keys), else appends a fresh row. -/
def commentCreate (db : DB) (content : String) (postId authorId : Nat) :
    Except DbErr Comment × DB :=
  if !db.posts.any (fun p => p.id == postId) then
    (.error .P2003, db)
  else if !db.users.any (fun u => u.id == authorId) then
    (.error .P2003, db)
  else
    let c : Comment :=
      { id := db.nextCommentId, content := content, postId := postId,
        authorId := authorId, createdAt := db.clock }
    (.ok c,
     { db with comments := db.comments ++ [c],
               nextCommentId := db.nextCommentId + 1, clock := db.clock + 1 })

/-- `prisma.comment.update`: `P2025` when no row has the id, else sets the
content in place. -/
def commentUpdate (db : DB) (id : Nat) (content : String) :
    Except DbErr Comment × DB :=
  match db.comments.find? (fun c => c.id == id) with
  | none => (.error .P2025, db)
  | some c =>
    let c' := { c with content := content }
    (.ok c',
     { db with comments := db.comments.map (fun q => if q.id == id then c' else q) })

/-- `prisma.comment.delete`: `P2025` when no row has the id, else deletes
the row. -/
def commentDelete (db : DB) (id : Nat) : Except DbErr Comment × DB :=
  match db.comments.find? (fun c => c.id == id) with
  | none => (.error .P2025, db)
  | some c =>
    (.ok c, { db with comments := db.comments.filter (fun q => q.id != id) })

/-- Whether the join table already holds a row for `(postId, categoryId)`
(the pair the schema declares `@@unique`). -/
def pairPresent (db : DB) (postId categoryId : Nat) : Bool :=
  db.postCategories.any
    (fun j => j.postId == postId && j.categoryId == categoryId)

/-- One `skipDuplicates` step of `prisma.postCategory.createMany`: skip the
pair when a join row with it exists, else append a fresh join row. -/
def insertPostCategory (db : DB) (postId categoryId : Nat) : DB :=
  if pairPresent db postId categoryId then
    db
  else
    { db with
      postCategories := db.postCategories ++
        [{ id := db.nextPostCategoryId, postId := postId,
           categoryId := categoryId, createdAt := db.clock }],
      nextPostCategoryId := db.nextPostCategoryId + 1,
      clock := db.clock + 1 }

/-- Insert the listed `(postId, categoryId)` pairs in order, each with the
`skipDuplicates` step. -/
def insertAllPostCategories (db : DB) : List (Nat × Nat) → DB
  | [] => db
  | r :: rs => insertAllPostCategories (insertPostCategory db r.1 r.2) rs

/-- `prisma.postCategory.createMany({ data, skipDuplicates: true })`: the
write is atomic, so a foreign-key violation anywhere (`P2003`) inserts
nothing; otherwise every pair is inserted with duplicates skipped. -/
def postCategoryCreateMany (db : DB) (rows : List (Nat × Nat)) :
    Except DbErr Unit × DB :=
  if rows.all (fun r => db.posts.any (fun p => p.id == r.1) &&
                        db.categories.any (fun c => c.id == r.2)) then
    (.ok (), insertAllPostCategories db rows)
  else
    (.error .P2003, db)

end Prisma

/-! ### UsersService -/

namespace UsersService

/-- The payload of `users.findOne`'s `posts` include: each post with its
join rows (each carrying its category) and its comments. -/
structure PostWithRels where
  post : Post
  categories : List (PostCategory × Option Category)
  comments : List Comment
deriving Repr, DecidableEq

/-- The payload of `users.findOne`: the user with profile, posts (with
categories and comments) and comments. -/
structure UserDetail where
  user : User
  profile : Option Profile
  posts : List PostWithRels
  comments : List Comment
deriving Repr, DecidableEq

/-- The payload of `users.findByEmail`: the user with profile and posts. -/
structure UserWithRels where
  user : User
  profile : Option Profile
  posts : List Post
deriving Repr, DecidableEq

/-- `UsersService.create`: a bare `prisma.user.create` with no try/catch, so
a database error (duplicate email, `P2002`) propagates untranslated. -/
def create (db : DB) (email : String) (name : Option String) :
    Except AppError User × DB :=
  match Prisma.userCreate db email name with
  | (.ok u, db') => (.ok u, db')
  | (.error e, db') => (.error (.db e), db')

/-- `UsersService.findOne`: deep eager-load, `NotFoundException` when the id
resolves to no row. -/
def findOne (db : DB) (id : Nat) : Except AppError UserDetail :=
  match Prisma.userFindUnique db id with
  | none => .error (.notFound s!"User with ID {id} not found")
  | some u =>
    .ok
      { user := u,
        profile := db.profiles.find? (fun p => p.userId == id),
        posts := (db.posts.filter (fun p => p.authorId == id)).map (fun p =>
          { post := p,
            categories := (db.postCategories.filter
                (fun j => j.postId == p.id)).map
              (fun j => (j, db.categories.find? (fun c => c.id == j.categoryId))),
            comments := db.comments.filter (fun c => c.postId == p.id) }),
        comments := db.comments.filter (fun c => c.authorId == id) }

/-- `UsersService.findByEmail`: returns the raw `findUnique` result (with
profile and posts included); no not-found check, so a missing email yields
`none` (the JSON `null`) rather than an error. -/
def findByEmail (db : DB) (email : String) : Option UserWithRels :=
  (Prisma.userFindByEmail db email).map (fun u =>
    { user := u,
      profile := db.profiles.find? (fun p => p.userId == u.id),
      posts := db.posts.filter (fun p => p.authorId == u.id) })

/-- `UsersService.update`: a bare `prisma.user.update` (with profile
included) and no try/catch, so `P2025`/`P2002` propagate untranslated. -/
def update (db : DB) (id : Nat) (d : Prisma.UserUpdateData) :
    Except AppError (User × Option Profile) × DB :=
  match Prisma.userUpdate db id d with
  | (.ok u, db') => (.ok (u, db'.profiles.find? (fun p => p.userId == id)), db')
  | (.error e, db') => (.error (.db e), db')

/-- `UsersService.updateProfile`: looks the user up (with profile included),
raises `NotFoundException` when the user is missing, updates the existing
profile row in place when there is one and creates one otherwise. -/
def updateProfile (db : DB) (userId : Nat) (d : Prisma.ProfileData) :
    Except AppError Profile × DB :=
  match Prisma.userFindUnique db userId with
  | none => (.error (.notFound s!"User with ID {userId} not found"), db)
  | some _ =>
    if (db.profiles.find? (fun p => p.userId == userId)).isSome then
      match Prisma.profileUpdateByUserId db userId d with
      | (.ok p, db') => (.ok p, db')
      | (.error e, db') => (.error (.db e), db')
    else
      match Prisma.profileCreate db d userId with
      | (.ok p, db') => (.ok p, db')
      | (.error e, db') => (.error (.db e), db')

/-- `UsersService.remove`: a bare `prisma.user.delete` and no try/catch, so
`P2025` propagates untranslated. -/
def remove (db : DB) (id : Nat) : Except AppError User × DB :=
  match Prisma.userDelete db id with
  | (.ok u, db') => (.ok u, db')
  | (.error e, db') => (.error (.db e), db')

end UsersService

/-! ### PostsService -/

namespace PostsService

/-- The payload of `posts.findOne`: author (with profile), join rows (each
with its category), and comments (each with its author) ordered newest
first. -/
structure PostDetail where
  post : Post
  author : Option (User × Option Profile)
  categories : List (PostCategory × Option Category)
  comments : List (Comment × Option User)
deriving Repr, DecidableEq

/-- The payload of `posts.update` / `posts.findByCategory`: the post with
author and join rows (each with its category). -/
structure PostView where
  post : Post
  author : Option User
  categories : List (PostCategory × Option Category)
deriving Repr, DecidableEq

/-- `PostsService.findOne`: deep eager-load with the comments ordered by
`createdAt desc`; `NotFoundException` when the id resolves to no row. -/
def findOne (db : DB) (id : Nat) : Except AppError PostDetail :=
  match db.posts.find? (fun p => p.id == id) with
  | none => .error (.notFound s!"Post with ID {id} not found")
  | some p =>
    .ok
      { post := p,
        author := (db.users.find? (fun u => u.id == p.authorId)).map (fun u =>
          (u, db.profiles.find? (fun pr => pr.userId == u.id))),
        categories := (db.postCategories.filter (fun j => j.postId == id)).map
          (fun j => (j, db.categories.find? (fun c => c.id == j.categoryId))),
        comments :=
          (sortByKeyDesc Comment.createdAt
            (db.comments.filter (fun c => c.postId == id))).map
          (fun c => (c, db.users.find? (fun u => u.id == c.authorId))) }

/-- `PostsService.update`: a bare `prisma.post.update` (with author and
categories included) and no try/catch, so `P2025` propagates untranslated. -/
def update (db : DB) (id : Nat) (d : Prisma.PostUpdateData) :
    Except AppError PostView × DB :=
  match Prisma.postUpdate db id d with
  | (.ok p, db') =>
    (.ok
      { post := p,
        author := db'.users.find? (fun u => u.id == p.authorId),
        categories := (db'.postCategories.filter (fun j => j.postId == id)).map
          (fun j => (j, db'.categories.find? (fun c => c.id == j.categoryId))) },
     db')
  | (.error e, db') => (.error (.db e), db')

/-- `PostsService.addCategories`: checks the post exists via `findOne`
(raising its `NotFoundException` otherwise), bulk-inserts the
`(postId, categoryId)` join rows with `skipDuplicates: true`, and returns
the post via `findOne` again. -/
def addCategories (db : DB) (postId : Nat) (categoryIds : List Nat) :
    Except AppError PostDetail × DB :=
  match findOne db postId with
  | .error e => (.error e, db)
  | .ok _ =>
    match Prisma.postCategoryCreateMany db
        (categoryIds.map (fun categoryId => (postId, categoryId))) with
    | (.error e, db') => (.error (.db e), db')
    | (.ok _, db') =>
      match findOne db' postId with
      | .error e => (.error e, db')
      | .ok v => (.ok v, db')

/-- `PostsService.addComment`: checks the post exists via `findOne`
(raising its `NotFoundException` otherwise), then creates the comment (with
author and post included). -/
def addComment (db : DB) (postId : Nat) (content : String) (authorId : Nat) :
    Except AppError (Comment × Option User × Option Post) × DB :=
  match findOne db postId with
  | .error e => (.error e, db)
  | .ok _ =>
    match Prisma.commentCreate db content postId authorId with
    | (.error e, db') => (.error (.db e), db')
    | (.ok c, db') =>
      (.ok (c, db'.users.find? (fun u => u.id == c.authorId),
            db'.posts.find? (fun p => p.id == c.postId)), db')

/-- `PostsService.remove`: a bare `prisma.post.delete` and no try/catch, so
`P2025` propagates untranslated. -/
def remove (db : DB) (id : Nat) : Except AppError Post × DB :=
  match Prisma.postDelete db id with
  | (.ok p, db') => (.ok p, db')
  | (.error e, db') => (.error (.db e), db')

/-- `PostsService.findByCategory`: the posts having at least one join row
with the given `categoryId`, each with author and categories included. -/
def findByCategory (db : DB) (categoryId : Nat) : List PostView :=
  (db.posts.filter (fun p => db.postCategories.any
      (fun j => j.postId == p.id && j.categoryId == categoryId))).map
    (fun p =>
      { post := p,
        author := db.users.find? (fun u => u.id == p.authorId),
        categories := (db.postCategories.filter (fun j => j.postId == p.id)).map
          (fun j => (j, db.categories.find? (fun c => c.id == j.categoryId))) })

end PostsService

/-! ### CategoriesService -/

namespace CategoriesService

/-- The payload of `categories.findOne`: the category with its join rows,
each carrying its post with that post's author and comments. -/
structure CategoryDetail where
  category : Category
  posts : List (PostCategory × Option (Post × Option User × List Comment))
deriving Repr, DecidableEq

/-- The payload of `getPopularCategories`: a category with its `_count` of
join rows. -/
structure CategoryWithCount where
  category : Category
  postsCount : Nat
deriving Repr, DecidableEq

/-- `CategoriesService.findOne`: eager-load of the joined posts with their
authors and comments; `NotFoundException` when the id resolves to no row. -/
def findOne (db : DB) (id : Nat) : Except AppError CategoryDetail :=
  match db.categories.find? (fun c => c.id == id) with
  | none => .error (.notFound s!"Category with ID {id} not found")
  | some c =>
    .ok
      { category := c,
        posts := (db.postCategories.filter (fun j => j.categoryId == id)).map
          (fun j => (j, (db.posts.find? (fun p => p.id == j.postId)).map (fun p =>
            (p, db.users.find? (fun u => u.id == p.authorId),
             db.comments.filter (fun cm => cm.postId == p.id))))) }

/-- The catch block of `CategoriesService.update`: `P2002` becomes a
`ConflictException`, `P2025` a `NotFoundException`, and every other error is
rethrown untranslated. -/
def updateTranslate (id : Nat) (e : DbErr) : AppError :=
  if e == .P2002 then .conflict "Category with this name or slug already exists"
  else if e == .P2025 then .notFound s!"Category with ID {id} not found"
  else .db e

/-- `CategoriesService.update`: `prisma.category.update` under the catch
block `updateTranslate`. -/
def update (db : DB) (id : Nat) (d : Prisma.CategoryUpdateData) :
    Except AppError Category × DB :=
  match Prisma.categoryUpdate db id d with
  | (.ok c, db') => (.ok c, db')
  | (.error e, db') => (.error (updateTranslate id e), db')

/-- The catch block of `CategoriesService.remove`: `P2025` becomes a
`NotFoundException`, and every other error is rethrown untranslated. -/
def removeTranslate (id : Nat) (e : DbErr) : AppError :=
  if e == .P2025 then .notFound s!"Category with ID {id} not found"
  else .db e

/-- `CategoriesService.remove`: `prisma.category.delete` under the catch
block `removeTranslate`. -/
def remove (db : DB) (id : Nat) : Except AppError Category × DB :=
  match Prisma.categoryDelete db id with
  | (.ok c, db') => (.ok c, db')
  | (.error e, db') => (.error (removeTranslate id e), db')

/-- The number of join rows a category has (its `_count.posts`). -/
def postCount (db : DB) (c : Category) : Nat :=
  (db.postCategories.filter (fun j => j.categoryId == c.id)).length

/-- `CategoriesService.getPopularCategories`: all categories with their
join-row `_count`, ordered by that count descending, truncated to `limit`.
This is one evaluation of the ordered read; the call's guarantee (which
leaves the order among equal counts to the database) is
`getPopularCategoriesSpec` below. -/
def getPopularCategories (db : DB) (limit : Nat) : List CategoryWithCount :=
  ((sortByKeyDesc (postCount db) db.categories).take limit).map
    (fun c => { category := c, postsCount := postCount db c })

/-- `getPopularCategories` called without an argument: the declared default
limit is 10. -/
def getPopularCategoriesDefault (db : DB) : List CategoryWithCount :=
  getPopularCategories db 10

/-- The results the ordered read
`findMany({ orderBy: { posts: { _count: 'desc' } }, take: limit })` may
return: some arrangement of all the categories that descends on join-row
count, truncated to `limit`, each category carrying its count. The source
names no secondary sort key, so the relative order of equal-count
categories is not determined. -/
def getPopularCategoriesSpec (db : DB) (limit : Nat)
    (r : List CategoryWithCount) : Prop :=
  ∃ s : List Category,
    s.Perm db.categories ∧
    s.Pairwise (fun a b => postCount db b ≤ postCount db a) ∧
    r = (s.take limit).map (fun c => { category := c, postsCount := postCount db c })

end CategoriesService

/-! ### CommentsService -/

namespace CommentsService

/-- The payload of `comments.findOne`: the comment with its author (with
profile) and its post (with that post's author). -/
structure CommentDetail where
  comment : Comment
  author : Option (User × Option Profile)
  post : Option (Post × Option User)
deriving Repr, DecidableEq

/-- `CommentsService.findOne`: `NotFoundException` when the id resolves to
no row. -/
def findOne (db : DB) (id : Nat) : Except AppError CommentDetail :=
  match db.comments.find? (fun c => c.id == id) with
  | none => .error (.notFound s!"Comment with ID {id} not found")
  | some c =>
    .ok
      { comment := c,
        author := (db.users.find? (fun u => u.id == c.authorId)).map (fun u =>
          (u, db.profiles.find? (fun pr => pr.userId == u.id))),
        post := (db.posts.find? (fun p => p.id == c.postId)).map (fun p =>
          (p, db.users.find? (fun u => u.id == p.authorId))) }

/-- The catch block of `CommentsService.update`: `P2025` becomes a
`NotFoundException`, and every other error is rethrown untranslated. -/
def updateTranslate (id : Nat) (e : DbErr) : AppError :=
  if e == .P2025 then .notFound s!"Comment with ID {id} not found"
  else .db e

/-- `CommentsService.update`: `prisma.comment.update` (with author and post
included) under the catch block `updateTranslate`. -/
def update (db : DB) (id : Nat) (content : String) :
    Except AppError (Comment × Option User × Option Post) × DB :=
  match Prisma.commentUpdate db id content with
  | (.ok c, db') =>
    (.ok (c, db'.users.find? (fun u => u.id == c.authorId),
          db'.posts.find? (fun p => p.id == c.postId)), db')
  | (.error e, db') => (.error (updateTranslate id e), db')

/-- The catch block of `CommentsService.remove`: `P2025` becomes a
`NotFoundException`, and every other error is rethrown untranslated. -/
def removeTranslate (id : Nat) (e : DbErr) : AppError :=
  if e == .P2025 then .notFound s!"Comment with ID {id} not found"
  else .db e

/-- `CommentsService.remove`: `prisma.comment.delete` under the catch block
`removeTranslate`. -/
def remove (db : DB) (id : Nat) : Except AppError Comment × DB :=
  match Prisma.commentDelete db id with
  | (.ok c, db') => (.ok c, db')
  | (.error e, db') => (.error (removeTranslate id e), db')

/-- `CommentsService.findByPost`: the post's comments ordered by
`createdAt desc`, each with its author (with profile). -/
def findByPost (db : DB) (postId : Nat) :
    List (Comment × Option (User × Option Profile)) :=
  (sortByKeyDesc Comment.createdAt
      (db.comments.filter (fun c => c.postId == postId))).map
    (fun c => (c, (db.users.find? (fun u => u.id == c.authorId)).map (fun u =>
      (u, db.profiles.find? (fun pr => pr.userId == u.id)))))

/-- `CommentsService.findByUser`: the user's comments ordered by
`createdAt desc`, each with its post (with that post's author). -/
def findByUser (db : DB) (userId : Nat) :
    List (Comment × Option (Post × Option User)) :=
  (sortByKeyDesc Comment.createdAt
      (db.comments.filter (fun c => c.authorId == userId))).map
    (fun c => (c, (db.posts.find? (fun p => p.id == c.postId)).map (fun p =>
      (p, db.users.find? (fun u => u.id == p.authorId)))))

end CommentsService

/-- No two join rows carry the same `(postId, categoryId)` pair: the
invariant of the schema's `@@unique([postId, categoryId])`. -/
def joinPairsDistinct (l : List PostCategory) : Prop :=
  l.Pairwise (fun a b => ¬(a.postId = b.postId ∧ a.categoryId = b.categoryId))

instance (l : List PostCategory) : Decidable (joinPairsDistinct l) := by
  unfold joinPairsDistinct
  infer_instance

/-- A small concrete store used to instantiate the theorems: two users (the
first with a profile), two posts, three categories, two join rows (both for
category 1), and two comments on post 1. -/
def dbW : DB :=
  { users :=
      [{ id := 1, email := "a@x.com", name := some "Alice", createdAt := 0 },
       { id := 2, email := "b@x.com", name := none, createdAt := 1 }],
    profiles :=
      [{ id := 1, bio := some "hello world!", avatar := none, website := none,
         userId := 1 }],
    posts :=
      [{ id := 1, title := "First", content := some "hi", published := true,
         authorId := 1, createdAt := 2 },
       { id := 2, title := "Second", content := none, published := false,
         authorId := 2, createdAt := 3 }],
    categories :=
      [{ id := 1, name := "Tech", slug := "tech" },
       { id := 2, name := "Life", slug := "life" },
       { id := 3, name := "News", slug := "news" }],
    postCategories :=
      [{ id := 1, postId := 1, categoryId := 1, createdAt := 4 },
       { id := 2, postId := 2, categoryId := 1, createdAt := 5 }],
    comments :=
      [{ id := 1, content := "Great post!", postId := 1, authorId := 2,
         createdAt := 6 },
       { id := 2, content := "Thanks!", postId := 1, authorId := 1,
         createdAt := 7 }],
    nextUserId := 3, nextProfileId := 2, nextPostId := 3, nextCategoryId := 4,
    nextPostCategoryId := 3, nextCommentId := 3, clock := 8 }

/-! ### Facts about list search -/

theorem find?_eq_none_of_any_false {α : Type} {p : α → Bool} {l : List α}
    (h : l.any p = false) : l.find? p = none := by
  rw [List.find?_eq_none]
  intro x hx hpx
  have : l.any p = true := List.any_eq_true.mpr ⟨x, hx, hpx⟩
  simp [this] at h

theorem any_false_of_find?_eq_none {α : Type} {p : α → Bool} {l : List α}
    (h : l.find? p = none) : l.any p = false := by
  rw [Bool.eq_false_iff]
  intro hany
  rcases List.any_eq_true.mp hany with ⟨x, hx, hpx⟩
  exact absurd hpx (by simpa using List.find?_eq_none.mp h x hx)

theorem any_true_of_find?_eq_some {α : Type} {p : α → Bool} {l : List α} {a : α}
    (h : l.find? p = some a) : l.any p = true :=
  List.any_eq_true.mpr ⟨a, List.mem_of_find?_eq_some h, List.find?_some h⟩

theorem exists_find?_eq_some_of_any_true {α : Type} {p : α → Bool} {l : List α}
    (h : l.any p = true) : ∃ a, l.find? p = some a := by
  rw [← Option.isSome_iff_exists, List.find?_isSome]
  simpa using List.any_eq_true.mp h

/-! ### Facts about the stable descending sort -/

theorem mem_insertIn {α : Type} (key : α → Nat) (x a : α) (l : List α) :
    a ∈ insertIn key x l ↔ a = x ∨ a ∈ l := by
  induction l with
  | nil => simp [insertIn]
  | cons y ys ih =>
    simp only [insertIn]
    by_cases h : key y < key x
    · simp only [if_pos h, List.mem_cons]
    · simp only [if_neg h, List.mem_cons, ih]
      tauto

theorem insertIn_perm {α : Type} (key : α → Nat) (x : α) (l : List α) :
    (insertIn key x l).Perm (x :: l) := by
  induction l with
  | nil => simp [insertIn]
  | cons y ys ih =>
    simp only [insertIn]
    by_cases h : key y < key x
    · simp [h]
    · simpa [h] using (ih.cons y).trans (List.Perm.swap x y ys)

theorem sortInsertAll_perm {α : Type} (key : α → Nat) (l : List α) :
    ∀ acc : List α, (sortInsertAll key l acc).Perm (l ++ acc) := by
  induction l with
  | nil => intro acc; simp [sortInsertAll]
  | cons x xs ih =>
    intro acc
    simp only [sortInsertAll]
    have h2 : (xs ++ insertIn key x acc).Perm (xs ++ x :: acc) :=
      (insertIn_perm key x acc).append_left xs
    exact (ih (insertIn key x acc)).trans (h2.trans List.perm_middle)

theorem sortByKeyDesc_perm {α : Type} (key : α → Nat) (l : List α) :
    (sortByKeyDesc key l).Perm l := by
  simpa using sortInsertAll_perm key l []

theorem insertIn_sorted {α : Type} (key : α → Nat) (x : α) (l : List α)
    (h : l.Pairwise (fun a b => key b ≤ key a)) :
    (insertIn key x l).Pairwise (fun a b => key b ≤ key a) := by
  induction l with
  | nil => simp [insertIn]
  | cons y ys ih =>
    rcases List.pairwise_cons.mp h with ⟨hy, hys⟩
    simp only [insertIn]
    by_cases hk : key y < key x
    · rw [if_pos hk]
      refine List.pairwise_cons.mpr ⟨?_, h⟩
      intro b hb
      rcases List.mem_cons.mp hb with rfl | hb
      · exact le_of_lt hk
      · exact le_trans (hy b hb) (le_of_lt hk)
    · rw [if_neg hk]
      refine List.pairwise_cons.mpr ⟨?_, ih hys⟩
      intro b hb
      rcases (mem_insertIn key x b ys).mp hb with rfl | hb
      · exact not_lt.mp hk
      · exact hy b hb

theorem sortInsertAll_sorted {α : Type} (key : α → Nat) (l : List α) :
    ∀ acc : List α, acc.Pairwise (fun a b => key b ≤ key a) →
    (sortInsertAll key l acc).Pairwise (fun a b => key b ≤ key a) := by
  induction l with
  | nil => intro acc hacc; exact hacc
  | cons x xs ih =>
    intro acc hacc
    exact ih (insertIn key x acc) (insertIn_sorted key x acc hacc)

theorem sortByKeyDesc_sorted {α : Type} (key : α → Nat) (l : List α) :
    (sortByKeyDesc key l).Pairwise (fun a b => key b ≤ key a) :=
  sortInsertAll_sorted key l [] (by simp)

/-! ### Facts about the `skipDuplicates` bulk insert -/

theorem insertPC_frame (db : DB) (a b : Nat) :
    (Prisma.insertPostCategory db a b).users = db.users ∧
    (Prisma.insertPostCategory db a b).profiles = db.profiles ∧
    (Prisma.insertPostCategory db a b).posts = db.posts ∧
    (Prisma.insertPostCategory db a b).categories = db.categories ∧
    (Prisma.insertPostCategory db a b).comments = db.comments := by
  unfold Prisma.insertPostCategory
  split <;> exact ⟨rfl, rfl, rfl, rfl, rfl⟩

theorem insertAllPC_frame (rows : List (Nat × Nat)) : ∀ db : DB,
    (Prisma.insertAllPostCategories db rows).users = db.users ∧
    (Prisma.insertAllPostCategories db rows).profiles = db.profiles ∧
    (Prisma.insertAllPostCategories db rows).posts = db.posts ∧
    (Prisma.insertAllPostCategories db rows).categories = db.categories ∧
    (Prisma.insertAllPostCategories db rows).comments = db.comments := by
  induction rows with
  | nil => intro db; exact ⟨rfl, rfl, rfl, rfl, rfl⟩
  | cons r rs ih =>
    intro db
    have h1 := insertPC_frame db r.1 r.2
    have h2 := ih (Prisma.insertPostCategory db r.1 r.2)
    exact ⟨h2.1.trans h1.1, h2.2.1.trans h1.2.1, h2.2.2.1.trans h1.2.2.1,
           h2.2.2.2.1.trans h1.2.2.2.1, h2.2.2.2.2.trans h1.2.2.2.2⟩

theorem insertPC_sublist (db : DB) (a b : Nat) :
    db.postCategories.Sublist (Prisma.insertPostCategory db a b).postCategories := by
  unfold Prisma.insertPostCategory
  split
  · exact List.Sublist.refl _
  · simp [List.sublist_append_left]

theorem insertAllPC_sublist (rows : List (Nat × Nat)) : ∀ db : DB,
    db.postCategories.Sublist
      (Prisma.insertAllPostCategories db rows).postCategories := by
  induction rows with
  | nil => intro db; exact List.Sublist.refl _
  | cons r rs ih =>
    intro db
    exact (insertPC_sublist db r.1 r.2).trans
      (ih (Prisma.insertPostCategory db r.1 r.2))

theorem insertPC_present (db : DB) (a b : Nat) :
    Prisma.pairPresent (Prisma.insertPostCategory db a b) a b = true := by
  unfold Prisma.insertPostCategory
  by_cases h : Prisma.pairPresent db a b
  · rwa [if_pos h]
  · rw [if_neg h]
    unfold Prisma.pairPresent
    simp

theorem pairPresent_mono {db db' : DB} (a b : Nat)
    (hsub : db.postCategories.Sublist db'.postCategories)
    (hp : Prisma.pairPresent db a b = true) :
    Prisma.pairPresent db' a b = true := by
  unfold Prisma.pairPresent at *
  rcases List.any_eq_true.mp hp with ⟨j, hj, hjp⟩
  exact List.any_eq_true.mpr ⟨j, hsub.subset hj, hjp⟩

theorem insertAllPC_complete (rows : List (Nat × Nat)) : ∀ db : DB,
    ∀ r ∈ rows,
      Prisma.pairPresent (Prisma.insertAllPostCategories db rows) r.1 r.2 = true := by
  induction rows with
  | nil => intro db r hr; cases hr
  | cons q qs ih =>
    intro db r hr
    rcases List.mem_cons.mp hr with rfl | hr
    · exact pairPresent_mono r.1 r.2
        (insertAllPC_sublist qs (Prisma.insertPostCategory db r.1 r.2))
        (insertPC_present db r.1 r.2)
    · exact ih (Prisma.insertPostCategory db q.1 q.2) r hr

theorem insertPC_of_present {db : DB} {a b : Nat}
    (h : Prisma.pairPresent db a b = true) :
    Prisma.insertPostCategory db a b = db := by
  unfold Prisma.insertPostCategory
  rw [if_pos h]

theorem insertAllPC_fixpoint (rows : List (Nat × Nat)) : ∀ db : DB,
    (∀ r ∈ rows, Prisma.pairPresent db r.1 r.2 = true) →
    Prisma.insertAllPostCategories db rows = db := by
  induction rows with
  | nil => intro db _; rfl
  | cons q qs ih =>
    intro db h
    have hq := insertPC_of_present (h q (List.mem_cons_self q qs))
    show Prisma.insertAllPostCategories (Prisma.insertPostCategory db q.1 q.2) qs = db
    rw [hq]
    exact ih db (fun r hr => h r (List.mem_cons_of_mem q hr))

theorem insertAllPC_new_rows (rows : List (Nat × Nat)) : ∀ db : DB,
    ∀ j ∈ (Prisma.insertAllPostCategories db rows).postCategories,
      j ∈ db.postCategories ∨
        ((j.postId, j.categoryId) ∈ rows ∧
         Prisma.pairPresent db j.postId j.categoryId = false) := by
  induction rows with
  | nil => intro db j hj; exact Or.inl hj
  | cons q qs ih =>
    intro db j hj
    rcases ih (Prisma.insertPostCategory db q.1 q.2) j hj with hmem | ⟨hrs, habs⟩
    · by_cases hq : Prisma.pairPresent db q.1 q.2
      · rw [insertPC_of_present hq] at hmem
        exact Or.inl hmem
      · unfold Prisma.insertPostCategory at hmem
        rw [if_neg hq] at hmem
        rcases List.mem_append.mp hmem with hmem | hnew
        · exact Or.inl hmem
        · rcases List.mem_singleton.mp hnew with rfl
          refine Or.inr ⟨?_, by simpa using Bool.eq_false_iff.mpr hq⟩
          simp
    · refine Or.inr ⟨List.mem_cons_of_mem q hrs, ?_⟩
      rw [Bool.eq_false_iff]
      intro hpres
      rw [pairPresent_mono j.postId j.categoryId (insertPC_sublist db q.1 q.2)
        hpres] at habs
      cases habs

theorem insertPC_joinPairsDistinct (db : DB) (a b : Nat)
    (h : joinPairsDistinct db.postCategories) :
    joinPairsDistinct (Prisma.insertPostCategory db a b).postCategories := by
  unfold Prisma.insertPostCategory
  by_cases hq : Prisma.pairPresent db a b
  · rwa [if_pos hq]
  · rw [if_neg hq]
    unfold joinPairsDistinct at *
    rw [List.pairwise_append]
    refine ⟨h, List.pairwise_singleton _ _, ?_⟩
    intro x hx y hy
    rcases List.mem_singleton.mp hy with rfl
    rintro ⟨h1, h2⟩
    have : Prisma.pairPresent db a b = true := by
      unfold Prisma.pairPresent
      exact List.any_eq_true.mpr ⟨x, hx, by simp [h1, h2]⟩
    exact hq this

theorem insertAllPC_joinPairsDistinct (rows : List (Nat × Nat)) : ∀ db : DB,
    joinPairsDistinct db.postCategories →
    joinPairsDistinct (Prisma.insertAllPostCategories db rows).postCategories := by
  induction rows with
  | nil => intro db h; exact h
  | cons q qs ih =>
    intro db h
    exact ih (Prisma.insertPostCategory db q.1 q.2)
      (insertPC_joinPairsDistinct db q.1 q.2 h)

/-! ### The claims -/

/-- C1 (amended): when a user with the given email already exists,
`UsersService.create` fails — but the failure is the database layer's
unique-violation error `P2002` propagated untranslated by the service (the
method has no catch block), not a 409 conflict domain signal. -/
theorem c1_create_duplicate_email_fails_with_db_error (db : DB)
    (email : String) (name : Option String)
    (h : db.users.any (fun u => u.email == email) = true) :
    UsersService.create db email name = (.error (.db .P2002), db) := by
  unfold UsersService.create Prisma.userCreate
  simp [h]

/-- C1 witness: on the concrete store `dbW`, creating a second user with the
already-taken email `a@x.com` fails with the untranslated `P2002`. -/
theorem c1_witness :
    dbW.users.any (fun u => u.email == "a@x.com") = true ∧
    UsersService.create dbW "a@x.com" none = (.error (.db .P2002), dbW) :=
  ⟨by decide,
   c1_create_duplicate_email_fails_with_db_error dbW "a@x.com" none (by decide)⟩

/-- C1 counterexample: on `dbW` a duplicate-email create does fail, but the
outcome is the raw database error `P2002`, not a uniqueness-conflict (409)
domain signal — refuting the claim that the conflict is re-signalled as a
domain error. -/
theorem c1_counterexample :
    UsersService.create dbW "a@x.com" none = (.error (.db .P2002), dbW) ∧
    isConflictResult (UsersService.create dbW "a@x.com" none).1 = false :=
  ⟨rfl, rfl⟩

/-- C2 (amended): the services catch at most the two known database error
codes, but not uniformly: `CategoriesService.update` re-signals `P2002` as a
conflict and `P2025` as not-found; `CategoriesService.remove`,
`CommentsService.update` and `CommentsService.remove` re-signal `P2025` as
not-found; every unknown code passes through these catch blocks unmodified;
and the update and remove operations of `UsersService` and `PostsService`
have no catch at all, so even `P2025` reaches the caller as a raw database
error. -/
theorem c2_catch_policy :
    (∀ (db : DB) (id : Nat) (d : Prisma.CategoryUpdateData),
        db.categories.any (fun c => c.id == id) = false →
        CategoriesService.update db id d =
          (.error (.notFound s!"Category with ID {id} not found"), db)) ∧
    (∀ (db : DB) (id : Nat) (d : Prisma.CategoryUpdateData) (c : Category),
        db.categories.find? (fun o => o.id == id) = some c →
        db.categories.any (fun o => o.id != id &&
          (o.name == (Prisma.applyCategoryUpdate c d).name ||
           o.slug == (Prisma.applyCategoryUpdate c d).slug)) = true →
        CategoriesService.update db id d =
          (.error (.conflict "Category with this name or slug already exists"),
           db)) ∧
    (∀ (db : DB) (id : Nat),
        db.categories.any (fun c => c.id == id) = false →
        CategoriesService.remove db id =
          (.error (.notFound s!"Category with ID {id} not found"), db)) ∧
    (∀ (db : DB) (id : Nat) (content : String),
        db.comments.any (fun c => c.id == id) = false →
        CommentsService.update db id content =
          (.error (.notFound s!"Comment with ID {id} not found"), db)) ∧
    (∀ (db : DB) (id : Nat),
        db.comments.any (fun c => c.id == id) = false →
        CommentsService.remove db id =
          (.error (.notFound s!"Comment with ID {id} not found"), db)) ∧
    (∀ (id : Nat) (e : DbErr), e ≠ .P2002 → e ≠ .P2025 →
        CategoriesService.updateTranslate id e = .db e) ∧
    (∀ (id : Nat) (e : DbErr), e ≠ .P2025 →
        CategoriesService.removeTranslate id e = .db e ∧
        CommentsService.updateTranslate id e = .db e ∧
        CommentsService.removeTranslate id e = .db e) ∧
    (∀ (db : DB) (id : Nat) (d : Prisma.UserUpdateData),
        db.users.any (fun u => u.id == id) = false →
        UsersService.update db id d = (.error (.db .P2025), db)) ∧
    (∀ (db : DB) (id : Nat),
        db.users.any (fun u => u.id == id) = false →
        UsersService.remove db id = (.error (.db .P2025), db)) ∧
    (∀ (db : DB) (id : Nat) (d : Prisma.PostUpdateData),
        db.posts.any (fun p => p.id == id) = false →
        PostsService.update db id d = (.error (.db .P2025), db)) ∧
    (∀ (db : DB) (id : Nat),
        db.posts.any (fun p => p.id == id) = false →
        PostsService.remove db id = (.error (.db .P2025), db)) := by
  refine ⟨?_, ?_, ?_, ?_, ?_, ?_, ?_, ?_, ?_, ?_, ?_⟩
  · intro db id d h
    unfold CategoriesService.update Prisma.categoryUpdate
    rw [find?_eq_none_of_any_false h]
    rfl
  · intro db id d c hfind hconf
    unfold CategoriesService.update Prisma.categoryUpdate
    rw [hfind]
    simp only [hconf, if_true]
    rfl
  · intro db id h
    unfold CategoriesService.remove Prisma.categoryDelete
    rw [find?_eq_none_of_any_false h]
    rfl
  · intro db id content h
    unfold CommentsService.update Prisma.commentUpdate
    rw [find?_eq_none_of_any_false h]
    rfl
  · intro db id h
    unfold CommentsService.remove Prisma.commentDelete
    rw [find?_eq_none_of_any_false h]
    rfl
  · intro id e h1 h2
    cases e with
    | P2002 => exact absurd rfl h1
    | P2025 => exact absurd rfl h2
    | P2003 => rfl
    | other s => rfl
  · intro id e h
    cases e with
    | P2025 => exact absurd rfl h
    | P2002 => exact ⟨rfl, rfl, rfl⟩
    | P2003 => exact ⟨rfl, rfl, rfl⟩
    | other s => exact ⟨rfl, rfl, rfl⟩
  · intro db id d h
    unfold UsersService.update Prisma.userUpdate
    rw [find?_eq_none_of_any_false h]
  · intro db id h
    unfold UsersService.remove Prisma.userDelete
    rw [find?_eq_none_of_any_false h]
  · intro db id d h
    unfold PostsService.update Prisma.postUpdate
    rw [find?_eq_none_of_any_false h]
  · intro db id h
    unfold PostsService.remove Prisma.postDelete
    rw [find?_eq_none_of_any_false h]

/-- C2 witness: the policy instantiated on concrete stores — a missing
category id is re-signalled as not-found by `CategoriesService.update`, an
unknown code passes through the comments catch block, and the same missing
id reaches the caller of `UsersService.update` as the raw `P2025`. -/
theorem c2_witness :
    CategoriesService.update DB.empty 7 ⟨none, none⟩ =
      (.error (.notFound "Category with ID 7 not found"), DB.empty) ∧
    CommentsService.updateTranslate 7 (.other "P1000") = .db (.other "P1000") ∧
    UsersService.update DB.empty 7 ⟨none, none⟩ =
      (.error (.db .P2025), DB.empty) := by
  have h := c2_catch_policy
  refine ⟨?_, ?_, ?_⟩
  · exact h.1 DB.empty 7 ⟨none, none⟩ (by decide)
  · exact (h.2.2.2.2.2.2.1 7 (.other "P1000") (by decide)).2.1
  · exact h.2.2.2.2.2.2.2.1 DB.empty 7 ⟨none, none⟩ (by decide)

/-- C2 counterexample: `UsersService.update` on a missing id yields the raw
database error `P2025`, not a not-found domain signal — refuting the claim
that the update operations of all four entity services re-signal the known
codes as domain errors. -/
theorem c2_counterexample :
    UsersService.update DB.empty 1 ⟨none, none⟩ =
      (.error (.db .P2025), DB.empty) ∧
    isNotFoundResult (UsersService.update DB.empty 1 ⟨none, none⟩).1 = false :=
  ⟨rfl, rfl⟩

/-- C6: for every id with no matching row, the `findOne` operation of each
of the four entity services raises the not-found domain signal and returns
no partial object. -/
theorem c6_findOne_missing_id_not_found (db : DB) (id : Nat) :
    (db.users.any (fun u => u.id == id) = false →
      UsersService.findOne db id =
        .error (.notFound s!"User with ID {id} not found")) ∧
    (db.posts.any (fun p => p.id == id) = false →
      PostsService.findOne db id =
        .error (.notFound s!"Post with ID {id} not found")) ∧
    (db.categories.any (fun c => c.id == id) = false →
      CategoriesService.findOne db id =
        .error (.notFound s!"Category with ID {id} not found")) ∧
    (db.comments.any (fun c => c.id == id) = false →
      CommentsService.findOne db id =
        .error (.notFound s!"Comment with ID {id} not found")) := by
  refine ⟨?_, ?_, ?_, ?_⟩
  · intro h
    unfold UsersService.findOne Prisma.userFindUnique
    rw [find?_eq_none_of_any_false h]
  · intro h
    unfold PostsService.findOne
    rw [find?_eq_none_of_any_false h]
  · intro h
    unfold CategoriesService.findOne
    rw [find?_eq_none_of_any_false h]
  · intro h
    unfold CommentsService.findOne
    rw [find?_eq_none_of_any_false h]

/-- C6 witness: `GET /users/999` against the concrete store `dbW` (and the
same id against posts) yields exactly the not-found signal. -/
theorem c6_witness :
    UsersService.findOne dbW 999 =
      .error (.notFound "User with ID 999 not found") ∧
    PostsService.findOne dbW 999 =
      .error (.notFound "Post with ID 999 not found") := by
  have h := c6_findOne_missing_id_not_found dbW 999
  exact ⟨h.1 (by decide), h.2.1 (by decide)⟩

/-- C7 (amended): `UsersService.findByEmail` with no matching user row
completes successfully with the empty result `none` (the HTTP layer returns
`null`); it does not raise a not-found domain signal. -/
theorem c7_findByEmail_missing_email_returns_none (db : DB) (email : String)
    (h : db.users.any (fun u => u.email == email) = false) :
    UsersService.findByEmail db email = none := by
  unfold UsersService.findByEmail Prisma.userFindByEmail
  rw [find?_eq_none_of_any_false h]
  rfl

/-- C7 witness: looking up an email absent from `dbW` returns `none`. -/
theorem c7_witness :
    dbW.users.any (fun u => u.email == "ghost@x.com") = false ∧
    UsersService.findByEmail dbW "ghost@x.com" = none :=
  ⟨by decide,
   c7_findByEmail_missing_email_returns_none dbW "ghost@x.com" (by decide)⟩

/-- C7 counterexample: `findByEmail` on the empty store completes with the
success value `none` — its result type has no error channel on this path —
refuting the claim that a missing email surfaces a 404-equivalent domain
signal. -/
theorem c7_counterexample :
    UsersService.findByEmail DB.empty "a@x.com" = none := by
  decide

/-- C10: for every postId with no matching post row, `addCategories` and
`addComment` raise the not-found signal before performing any write, and the
store — join table and comment table included — is returned unchanged. -/
theorem c10_missing_post_no_write (db : DB) (postId : Nat)
    (h : db.posts.any (fun p => p.id == postId) = false) :
    (∀ categoryIds, PostsService.addCategories db postId categoryIds =
        (.error (.notFound s!"Post with ID {postId} not found"), db)) ∧
    (∀ content authorId, PostsService.addComment db postId content authorId =
        (.error (.notFound s!"Post with ID {postId} not found"), db)) := by
  have hfo : PostsService.findOne db postId =
      .error (.notFound s!"Post with ID {postId} not found") := by
    unfold PostsService.findOne
    rw [find?_eq_none_of_any_false h]
  constructor
  · intro categoryIds
    unfold PostsService.addCategories
    rw [hfo]
  · intro content authorId
    unfold PostsService.addComment
    rw [hfo]

/-- C10 witness: on the empty store, adding categories or a comment to the
nonexistent post 42 raises not-found and leaves the store untouched. -/
theorem c10_witness :
    PostsService.addCategories DB.empty 42 [1] =
      (.error (.notFound "Post with ID 42 not found"), DB.empty) ∧
    PostsService.addComment DB.empty 42 "hi" 1 =
      (.error (.notFound "Post with ID 42 not found"), DB.empty) := by
  have h := c10_missing_post_no_write DB.empty 42 (by decide)
  exact ⟨h.1 [1], h.2 "hi" 1⟩

/-- Projecting the first components back out of a row-with-relation pairing
recovers the original list. -/
theorem map_pair_fst {α β : Type} (g : α → β) (l : List α) :
    (l.map (fun c => (c, g c))).map Prod.fst = l := by
  induction l with
  | nil => rfl
  | cons x xs ih => simp [ih]

/-- Projecting the post back out of a list of `PostView`s built over a list
of posts recovers that list. -/
theorem map_postView_post (f : Post → Option User)
    (g : Post → List (PostCategory × Option Category)) (l : List Post) :
    (l.map (fun p => ({ post := p, author := f p, categories := g p} :
      PostsService.PostView))).map PostsService.PostView.post = l := by
  induction l with
  | nil => rfl
  | cons x xs ih => simp [ih]

/-- C3: `updateProfile` raises not-found when the user id does not resolve;
updates the existing profile row in place when the user has one; creates a
fresh profile row with the given data and userId when the user has none; and
never leaves two profile rows for one user. -/
theorem c3_updateProfile_upsert (db : DB) (userId : Nat)
    (d : Prisma.ProfileData)
    (hone : db.profiles.Pairwise (fun a b => a.userId ≠ b.userId)) :
    (db.users.any (fun u => u.id == userId) = false →
      UsersService.updateProfile db userId d =
        (.error (.notFound s!"User with ID {userId} not found"), db)) ∧
    (∀ p, db.users.any (fun u => u.id == userId) = true →
      db.profiles.find? (fun q => q.userId == userId) = some p →
      UsersService.updateProfile db userId d =
        (.ok (Prisma.applyProfileData p d),
         { db with profiles := db.profiles.map (fun q =>
             if q.userId == userId then Prisma.applyProfileData p d else q) })) ∧
    (db.users.any (fun u => u.id == userId) = true →
      db.profiles.find? (fun q => q.userId == userId) = none →
      UsersService.updateProfile db userId d =
        (.ok { id := db.nextProfileId, bio := d.bio, avatar := d.avatar,
               website := d.website, userId := userId },
         { db with
           profiles := db.profiles ++
             [{ id := db.nextProfileId, bio := d.bio, avatar := d.avatar,
                website := d.website, userId := userId }],
           nextProfileId := db.nextProfileId + 1 })) ∧
    (UsersService.updateProfile db userId d).2.profiles.Pairwise
      (fun a b => a.userId ≠ b.userId) := by
  refine ⟨?_, ?_, ?_, ?_⟩
  · intro h
    unfold UsersService.updateProfile Prisma.userFindUnique
    rw [find?_eq_none_of_any_false h]
  · intro p hu hp
    obtain ⟨u, hufind⟩ := exists_find?_eq_some_of_any_true hu
    unfold UsersService.updateProfile Prisma.userFindUnique
      Prisma.profileUpdateByUserId
    rw [hufind, hp]
    rfl
  · intro hu hp
    obtain ⟨u, hufind⟩ := exists_find?_eq_some_of_any_true hu
    unfold UsersService.updateProfile Prisma.userFindUnique Prisma.profileCreate
    rw [hufind, hp, any_false_of_find?_eq_none hp,
      any_true_of_find?_eq_some hufind]
    rfl
  · cases hfu : db.users.find? (fun u => u.id == userId) with
    | none =>
      have heq : UsersService.updateProfile db userId d =
          (.error (.notFound s!"User with ID {userId} not found"), db) := by
        unfold UsersService.updateProfile Prisma.userFindUnique
        rw [hfu]
      rw [heq]
      exact hone
    | some u =>
      cases hfp : db.profiles.find? (fun q => q.userId == userId) with
      | some p =>
        have heq : UsersService.updateProfile db userId d =
            (.ok (Prisma.applyProfileData p d),
             { db with profiles := db.profiles.map (fun q =>
                 if q.userId == userId then Prisma.applyProfileData p d
                 else q) }) := by
          unfold UsersService.updateProfile Prisma.userFindUnique
            Prisma.profileUpdateByUserId
          rw [hfu, hfp]
          rfl
        rw [heq]
        have hpuser : p.userId = userId := by
          simpa using List.find?_some hfp
        have hpres : ∀ q : Profile,
            ((fun q => if q.userId == userId then Prisma.applyProfileData p d
              else q) q).userId = q.userId := by
          intro q
          by_cases hq : (q.userId == userId) = true
          · have h2 : q.userId = userId := by simpa using hq
            simp [hq, Prisma.applyProfileData, hpuser, h2]
          · simp [hq]
        exact hone.map _ (fun a b hab => by
          rw [hpres a, hpres b]; exact hab)
      | none =>
        have heq : UsersService.updateProfile db userId d =
            (.ok { id := db.nextProfileId, bio := d.bio, avatar := d.avatar,
                   website := d.website, userId := userId },
             { db with
               profiles := db.profiles ++
                 [{ id := db.nextProfileId, bio := d.bio, avatar := d.avatar,
                    website := d.website, userId := userId }],
               nextProfileId := db.nextProfileId + 1 }) := by
          unfold UsersService.updateProfile Prisma.userFindUnique
            Prisma.profileCreate
          rw [hfu, hfp, any_false_of_find?_eq_none hfp,
            any_true_of_find?_eq_some hfu]
          rfl
        rw [heq]
        refine List.pairwise_append.mpr
          ⟨hone, List.pairwise_singleton _ _, ?_⟩
        intro a ha b hb
        rcases List.mem_singleton.mp hb with rfl
        intro hcontra
        have : ¬(a.userId == userId) = true := List.find?_eq_none.mp hfp a ha
        exact this (by simpa using hcontra)

/-- C3 witness: on `dbW`, user 2 exists and has no profile row, so
`updateProfile` creates one, and the one-profile-per-user invariant is
preserved. -/
theorem c3_witness :
    dbW.profiles.Pairwise (fun a b => a.userId ≠ b.userId) ∧
    UsersService.updateProfile dbW 2 ⟨some "new bio", none, none⟩ =
      (.ok { id := 2, bio := some "new bio", avatar := none, website := none,
             userId := 2 },
       { dbW with
         profiles := dbW.profiles ++
           [{ id := 2, bio := some "new bio", avatar := none, website := none,
              userId := 2 }],
         nextProfileId := 3 }) ∧
    (UsersService.updateProfile dbW 2 ⟨some "new bio", none, none⟩).2.profiles.Pairwise
      (fun a b => a.userId ≠ b.userId) := by
  have h := c3_updateProfile_upsert dbW 2 ⟨some "new bio", none, none⟩ (by decide)
  exact ⟨by decide, h.2.2.1 (by decide) (by decide), h.2.2.2⟩

/-- C8: the comments embedded in `posts.findOne` are ordered newest-first
(descending `createdAt`), and `comments.findByPost` / `comments.findByUser`
return exactly the comments of the post / user, ordered newest-first. -/
theorem c8_comments_newest_first (db : DB) :
    (∀ id v, PostsService.findOne db id = .ok v →
      v.comments.Pairwise (fun a b => b.1.createdAt ≤ a.1.createdAt) ∧
      (v.comments.map Prod.fst).Perm
        (db.comments.filter (fun c => c.postId == id))) ∧
    (∀ postId,
      (CommentsService.findByPost db postId).Pairwise
        (fun a b => b.1.createdAt ≤ a.1.createdAt) ∧
      ((CommentsService.findByPost db postId).map Prod.fst).Perm
        (db.comments.filter (fun c => c.postId == postId))) ∧
    (∀ userId,
      (CommentsService.findByUser db userId).Pairwise
        (fun a b => b.1.createdAt ≤ a.1.createdAt) ∧
      ((CommentsService.findByUser db userId).map Prod.fst).Perm
        (db.comments.filter (fun c => c.authorId == userId))) := by
  refine ⟨?_, ?_, ?_⟩
  · intro id v hv
    unfold PostsService.findOne at hv
    cases hf : db.posts.find? (fun p => p.id == id) with
    | none => rw [hf] at hv; cases hv
    | some p =>
      rw [hf] at hv
      simp only [Except.ok.injEq] at hv
      rw [← hv]
      constructor
      · exact List.pairwise_map.mpr
          (sortByKeyDesc_sorted Comment.createdAt _)
      · rw [map_pair_fst]
        exact sortByKeyDesc_perm Comment.createdAt _
  · intro postId
    unfold CommentsService.findByPost
    constructor
    · exact List.pairwise_map.mpr (sortByKeyDesc_sorted Comment.createdAt _)
    · rw [map_pair_fst]
      exact sortByKeyDesc_perm Comment.createdAt _
  · intro userId
    unfold CommentsService.findByUser
    constructor
    · exact List.pairwise_map.mpr (sortByKeyDesc_sorted Comment.createdAt _)
    · rw [map_pair_fst]
      exact sortByKeyDesc_perm Comment.createdAt _

/-- C8 witness: on `dbW`, post 1 has comments with `createdAt` 6 and 7, and
both the embedded list of `findOne` and `findByPost` return them newest
first. -/
theorem c8_witness :
    ((CommentsService.findByPost dbW 1).Pairwise
      (fun a b => b.1.createdAt ≤ a.1.createdAt)) ∧
    ((CommentsService.findByPost dbW 1).map Prod.fst).Perm
      (dbW.comments.filter (fun c => c.postId == 1)) ∧
    ((CommentsService.findByPost dbW 1).map (fun x => x.1.createdAt) = [7, 6]) := by
  have h := c8_comments_newest_first dbW
  exact ⟨(h.2.1 1).1, (h.2.1 1).2, by decide⟩

/-- C9: `findByCategory` returns exactly the posts having at least one join
row with the given categoryId: a post is in the result iff some
`(postId, categoryId)` join row links it to the category. -/
theorem c9_findByCategory_exactly_joined_posts (db : DB) (categoryId : Nat) :
    ((PostsService.findByCategory db categoryId).map PostsService.PostView.post)
      = db.posts.filter (fun p => db.postCategories.any
          (fun j => j.postId == p.id && j.categoryId == categoryId)) ∧
    (∀ p : Post,
      (∃ v ∈ PostsService.findByCategory db categoryId, v.post = p) ↔
      (p ∈ db.posts ∧ ∃ j ∈ db.postCategories,
        j.postId = p.id ∧ j.categoryId = categoryId)) := by
  constructor
  · unfold PostsService.findByCategory
    exact map_postView_post _ _ _
  · intro p
    unfold PostsService.findByCategory
    simp only [List.mem_map, List.mem_filter, List.any_eq_true,
      Bool.and_eq_true, beq_iff_eq]
    constructor
    · rintro ⟨v, ⟨q, ⟨hq, j, hj, hj1, hj2⟩, rfl⟩, rfl⟩
      exact ⟨hq, j, hj, hj1, hj2⟩
    · rintro ⟨hp, j, hj, hj1, hj2⟩
      exact ⟨_, ⟨p, ⟨hp, j, hj, hj1, hj2⟩, rfl⟩, rfl⟩

/-- Evaluation of `addCategories` when the post exists and every listed
category id exists: the final store is the `skipDuplicates` bulk insert of
the pairs, and the call returns a post view. -/
theorem addCategories_eval_ok (db : DB) (postId : Nat) (categoryIds : List Nat)
    (hpost : db.posts.any (fun p => p.id == postId) = true)
    (hg : (categoryIds.map (fun cid => (postId, cid))).all
        (fun r => db.posts.any (fun p => p.id == r.1) &&
                  db.categories.any (fun c => c.id == r.2)) = true) :
    (PostsService.addCategories db postId categoryIds).2 =
      Prisma.insertAllPostCategories db
        (categoryIds.map (fun cid => (postId, cid))) ∧
    ∃ v, (PostsService.addCategories db postId categoryIds).1 = .ok v := by
  obtain ⟨p, hp⟩ := exists_find?_eq_some_of_any_true hpost
  cases hE : PostsService.findOne db postId with
  | error e =>
    exfalso
    unfold PostsService.findOne at hE
    rw [hp] at hE
    simp at hE
  | ok v =>
    cases hE1 : PostsService.findOne
        (Prisma.insertAllPostCategories db
          (categoryIds.map (fun cid => (postId, cid)))) postId with
    | error e =>
      exfalso
      unfold PostsService.findOne at hE1
      rw [(insertAllPC_frame _ db).2.2.1, hp] at hE1
      simp at hE1
    | ok v1 =>
      have hcm : Prisma.postCategoryCreateMany db
          (categoryIds.map (fun cid => (postId, cid))) =
          (.ok (), Prisma.insertAllPostCategories db
            (categoryIds.map (fun cid => (postId, cid)))) := by
        unfold Prisma.postCategoryCreateMany
        rw [if_pos hg]
      have heq : PostsService.addCategories db postId categoryIds =
          (.ok v1, Prisma.insertAllPostCategories db
            (categoryIds.map (fun cid => (postId, cid)))) := by
        unfold PostsService.addCategories
        simp only [hE, hcm, hE1]
      rw [heq]
      exact ⟨rfl, v1, rfl⟩

/-- Evaluation of `addCategories` when the post exists but some listed pair
fails the foreign-key check: the atomic `createMany` inserts nothing and the
raw `P2003` bubbles out of the service. -/
theorem addCategories_eval_fail (db : DB) (postId : Nat)
    (categoryIds : List Nat)
    (hpost : db.posts.any (fun p => p.id == postId) = true)
    (hg : ¬ (categoryIds.map (fun cid => (postId, cid))).all
        (fun r => db.posts.any (fun p => p.id == r.1) &&
                  db.categories.any (fun c => c.id == r.2)) = true) :
    PostsService.addCategories db postId categoryIds =
      (.error (.db .P2003), db) := by
  obtain ⟨p, hp⟩ := exists_find?_eq_some_of_any_true hpost
  cases hE : PostsService.findOne db postId with
  | error e =>
    exfalso
    unfold PostsService.findOne at hE
    rw [hp] at hE
    simp at hE
  | ok v =>
    unfold PostsService.addCategories Prisma.postCategoryCreateMany
    rw [hE, if_neg hg]

/-- When the post exists, the foreign-key guard of the bulk insert reduces
to the existence of every listed category. -/
theorem addCategories_guard (db : DB) (postId : Nat) (categoryIds : List Nat)
    (hpost : db.posts.any (fun p => p.id == postId) = true) :
    (categoryIds.map (fun cid => (postId, cid))).all
        (fun r => db.posts.any (fun p => p.id == r.1) &&
                  db.categories.any (fun c => c.id == r.2))
      = categoryIds.all (fun cid => db.categories.any (fun c => c.id == cid)) := by
  induction categoryIds with
  | nil => rfl
  | cons cid cids ih => simp [hpost, ih]

/-- C4: `addCategories` on an existing post inserts a join row only for
pairs not already present and silently skips pairs that are: the join table
gains no duplicate `(postId, categoryId)` pair, and repeating the same call
leaves the whole store unchanged (idempotence). -/
theorem c4_addCategories_idempotent (db : DB) (postId : Nat)
    (categoryIds : List Nat)
    (hpost : db.posts.any (fun p => p.id == postId) = true)
    (hdup : joinPairsDistinct db.postCategories) :
    (∀ j ∈ (PostsService.addCategories db postId categoryIds).2.postCategories,
       j ∈ db.postCategories ∨
         (j.postId = postId ∧ j.categoryId ∈ categoryIds ∧
          ∀ j0 ∈ db.postCategories,
            ¬(j0.postId = j.postId ∧ j0.categoryId = j.categoryId))) ∧
    joinPairsDistinct
      (PostsService.addCategories db postId categoryIds).2.postCategories ∧
    (PostsService.addCategories
        (PostsService.addCategories db postId categoryIds).2 postId
        categoryIds).2
      = (PostsService.addCategories db postId categoryIds).2 ∧
    (categoryIds.all (fun cid => db.categories.any (fun c => c.id == cid)) = true →
      ∃ v, (PostsService.addCategories db postId categoryIds).1 = .ok v) := by
  by_cases hg : (categoryIds.map (fun cid => (postId, cid))).all
      (fun r => db.posts.any (fun p => p.id == r.1) &&
                db.categories.any (fun c => c.id == r.2)) = true
  · have heval := addCategories_eval_ok db postId categoryIds hpost hg
    have hframe := insertAllPC_frame (categoryIds.map (fun cid => (postId, cid))) db
    refine ⟨?_, ?_, ?_, fun _ => heval.2⟩
    · rw [heval.1]
      intro j hj
      rcases insertAllPC_new_rows (categoryIds.map (fun cid => (postId, cid)))
          db j hj with hmem | ⟨hpair, habs⟩
      · exact Or.inl hmem
      · rcases List.mem_map.mp hpair with ⟨cid, hcid, hpq⟩
        have h1 : postId = j.postId := congrArg Prod.fst hpq
        have h2 : cid = j.categoryId := congrArg Prod.snd hpq
        refine Or.inr ⟨h1.symm, h2 ▸ hcid, ?_⟩
        rintro j0 hj0 ⟨e1, e2⟩
        have : Prisma.pairPresent db j.postId j.categoryId = true := by
          unfold Prisma.pairPresent
          exact List.any_eq_true.mpr ⟨j0, hj0, by simp [e1, e2]⟩
        rw [this] at habs
        cases habs
    · rw [heval.1]
      exact insertAllPC_joinPairsDistinct _ db hdup
    · rw [heval.1]
      have hpost1 : (Prisma.insertAllPostCategories db
          (categoryIds.map (fun cid => (postId, cid)))).posts.any
            (fun p => p.id == postId) = true := by
        rw [hframe.2.2.1]; exact hpost
      have hg1 : (categoryIds.map (fun cid => (postId, cid))).all
          (fun r => (Prisma.insertAllPostCategories db
              (categoryIds.map (fun cid => (postId, cid)))).posts.any
                (fun p => p.id == r.1) &&
            (Prisma.insertAllPostCategories db
              (categoryIds.map (fun cid => (postId, cid)))).categories.any
                (fun c => c.id == r.2)) = true := by
        rw [hframe.2.2.1, hframe.2.2.2.1]; exact hg
      rw [(addCategories_eval_ok _ postId categoryIds hpost1 hg1).1]
      exact insertAllPC_fixpoint _ _ (insertAllPC_complete _ db)
  · have hfail := addCategories_eval_fail db postId categoryIds hpost hg
    refine ⟨?_, ?_, ?_, ?_⟩
    · rw [hfail]
      intro j hj
      exact Or.inl hj
    · rw [hfail]
      exact hdup
    · rw [hfail]
      show (PostsService.addCategories db postId categoryIds).2 = db
      rw [hfail]
    · intro hall
      rw [addCategories_guard db postId categoryIds hpost] at hg
      exact absurd hall hg

/-- C4 witness: on `dbW`, post 1 already carries category 1; adding `[1, 2]`
skips the duplicate pair, keeps the join pairs distinct, succeeds, and a
second identical call leaves the store exactly as it was. -/
theorem c4_witness :
    joinPairsDistinct (PostsService.addCategories dbW 1 [1, 2]).2.postCategories ∧
    (PostsService.addCategories
        (PostsService.addCategories dbW 1 [1, 2]).2 1 [1, 2]).2
      = (PostsService.addCategories dbW 1 [1, 2]).2 ∧
    (PostsService.addCategories dbW 1 [1, 2]).2.postCategories.map
        (fun j => (j.postId, j.categoryId))
      = [(1, 1), (2, 1), (1, 2)] := by
  have h := c4_addCategories_idempotent dbW 1 [1, 2] (by decide) (by decide)
  exact ⟨h.2.1, h.2.2.1, by decide⟩

/-- C5 (amended): every result the ordered read of `getPopularCategories`
may return holds at most `limit` categories (exactly `min limit n`), each a
real category with its join-row count, in descending count order, with
every omitted category counting no more than any returned one; the
executable read is one such result, and the declared default limit is 10.
The order among equal counts is whatever the database returns — the source
names no secondary sort key, so no insertion-order tie-break is
guaranteed. -/
theorem c5_popular_categories (db : DB) (limit : Nat)
    (r : List CategoriesService.CategoryWithCount)
    (hr : CategoriesService.getPopularCategoriesSpec db limit r) :
    r.length = min limit db.categories.length ∧
    (∀ x ∈ r, x.category ∈ db.categories ∧
      x.postsCount = CategoriesService.postCount db x.category) ∧
    r.Pairwise (fun x y => y.postsCount ≤ x.postsCount) ∧
    (∀ c ∈ db.categories, (∀ x ∈ r, x.category ≠ c) →
      ∀ x ∈ r, CategoriesService.postCount db c ≤ x.postsCount) ∧
    CategoriesService.getPopularCategoriesSpec db limit
      (CategoriesService.getPopularCategories db limit) ∧
    CategoriesService.getPopularCategoriesDefault db =
      CategoriesService.getPopularCategories db 10 := by
  obtain ⟨s, hperm, hsorted, rfl⟩ := hr
  refine ⟨?_, ?_, ?_, ?_, ?_, rfl⟩
  · rw [List.length_map, List.length_take, hperm.length_eq]
  · intro x hx
    rcases List.mem_map.mp hx with ⟨c, hc, rfl⟩
    exact ⟨hperm.mem_iff.mp ((List.take_sublist _ _).subset hc), rfl⟩
  · refine List.pairwise_map.mpr ?_
    exact List.Pairwise.sublist (List.take_sublist _ _) hsorted
  · intro c hc hnot x hx
    have hcs : c ∈ s := hperm.mem_iff.mpr hc
    rw [← List.take_append_drop limit s] at hcs
    rcases List.mem_append.mp hcs with hctake | hcdrop
    · exact absurd rfl (hnot ⟨c, CategoriesService.postCount db c⟩
        (List.mem_map.mpr ⟨c, hctake, rfl⟩))
    · rcases List.mem_map.mp hx with ⟨a, hatake, rfl⟩
      rw [← List.take_append_drop limit s] at hsorted
      exact (List.pairwise_append.mp hsorted).2.2 a hatake c hcdrop
  · exact ⟨sortByKeyDesc (CategoriesService.postCount db) db.categories,
      sortByKeyDesc_perm _ _, sortByKeyDesc_sorted _ _, rfl⟩

/-- C5 witness: on `dbW` (category 1 has two posts, categories 2 and 3 have
none), the executable read with limit 2 is a permitted result, and it has
exactly two entries with descending counts: category 1 (count 2) then
category 2 (count 0). -/
theorem c5_witness :
    CategoriesService.getPopularCategoriesSpec dbW 2
      (CategoriesService.getPopularCategories dbW 2) ∧
    (CategoriesService.getPopularCategories dbW 2).length = 2 ∧
    (CategoriesService.getPopularCategories dbW 2).Pairwise
      (fun x y => y.postsCount ≤ x.postsCount) ∧
    CategoriesService.getPopularCategories dbW 2 =
      [⟨⟨1, "Tech", "tech"⟩, 2⟩, ⟨⟨2, "Life", "life"⟩, 0⟩] := by
  have hspec : CategoriesService.getPopularCategoriesSpec dbW 2
      (CategoriesService.getPopularCategories dbW 2) :=
    ⟨[⟨1, "Tech", "tech"⟩, ⟨2, "Life", "life"⟩, ⟨3, "News", "news"⟩],
     by decide, by decide, by decide⟩
  have h := c5_popular_categories dbW 2
    (CategoriesService.getPopularCategories dbW 2) hspec
  refine ⟨hspec, ?_, h.2.2.1, by decide⟩
  rw [h.1]
  decide

/-- C5 counterexample: on `dbW`, categories 2 and 3 both have zero posts,
and the ordered read permits both tie orders — the result placing the
later-inserted category 3 before category 2 is as valid an outcome of
`orderBy posts._count desc` as the insertion-ordered one — so the claimed
earlier-inserted-first tie-break is not a guarantee of the program. -/
theorem c5_counterexample :
    CategoriesService.getPopularCategoriesSpec dbW 10
      [⟨⟨1, "Tech", "tech"⟩, 2⟩, ⟨⟨3, "News", "news"⟩, 0⟩,
       ⟨⟨2, "Life", "life"⟩, 0⟩] ∧
    CategoriesService.getPopularCategoriesSpec dbW 10
      [⟨⟨1, "Tech", "tech"⟩, 2⟩, ⟨⟨2, "Life", "life"⟩, 0⟩,
       ⟨⟨3, "News", "news"⟩, 0⟩] :=
  ⟨⟨[⟨1, "Tech", "tech"⟩, ⟨3, "News", "news"⟩, ⟨2, "Life", "life"⟩],
    by decide, by decide, by decide⟩,
   ⟨[⟨1, "Tech", "tech"⟩, ⟨2, "Life", "life"⟩, ⟨3, "News", "news"⟩],
    by decide, by decide, by decide⟩⟩

end Blog
